import Mathlib

/-!
Shallow embedding of the rule-based fraud decision engine
(`src/Rule_Engine/Engine.py`) and its interface layer
(`src/Interface/schemas.py`, `validator.py`, `authorize.py`,
`handler.py`), together with theorems settling the frozen claims.

Modelling conventions:
- Python `float` amounts are embedded as `ℚ`: the code only constructs
  amounts and compares them against integer thresholds, never performs
  rounding arithmetic, so order comparisons are exact.
- `TransactionRequest.amount` is `Option ℚ` because `Engine.py`
  defends against a missing amount (`txn.amount is None`).
- Python exceptions are embedded with `Except String`.
- A raw request payload (a Python dict) is embedded as a structure of
  optional fields; a `none` field models an absent dict key.
-/

/-- Decisions are plain strings in the source (`Decision = str`). -/
abbrev Decision := String

abbrev ReasonList := List String

/-- Embeds `TransactionRequest` from `src/Interface/schemas.py`. -/
structure TransactionRequest where
  user_id : String
  amount : Option ℚ
  merchant_id : String
  timestamp : String
  currency : String
  device_id : Option String
  location : Option String
deriving Repr, DecidableEq

/-- Embeds `RuleResult` from `src/Rule_Engine/Engine.py`. -/
structure RuleResult where
  name : String
  hit : Bool
  decision : Option Decision
  reasons : ReasonList
  severity : Int
deriving Repr, DecidableEq

abbrev Rule := TransactionRequest → RuleResult

/-- Embeds `_amount_non_positive_rule` (Engine.py): hard guardrail,
the amount must be present and positive. -/
def _amount_non_positive_rule (txn : TransactionRequest) : RuleResult :=
  match txn.amount with
  | none =>
      ⟨"amount_non_positive", true, some "DECLINE",
        ["Transaction amount must be positive"], 100⟩
  | some a =>
      if a ≤ 0 then
        ⟨"amount_non_positive", true, some "DECLINE",
          ["Transaction amount must be positive"], 100⟩
      else
        ⟨"amount_non_positive", false, none, [], 0⟩

/-- Embeds `_max_amount_rule` (Engine.py): decline when the amount
exceeds 100000. -/
def _max_amount_rule (txn : TransactionRequest) : RuleResult :=
  match txn.amount with
  | some a =>
      if 100000 < a then
        ⟨"max_amount_limit", true, some "DECLINE",
          ["Amount exceeds maximum allowed limit (100,000)"], 90⟩
      else
        ⟨"max_amount_limit", false, none, [], 0⟩
  | none => ⟨"max_amount_limit", false, none, [], 0⟩

/-- Embeds `_high_value_review_rule` (Engine.py): review when
50000 < amount <= 100000. -/
def _high_value_review_rule (txn : TransactionRequest) : RuleResult :=
  match txn.amount with
  | some a =>
      if 50000 < a ∧ a ≤ 100000 then
        ⟨"high_value_review", true, some "REVIEW",
          ["High-value transaction requires additional scrutiny"], 50⟩
      else
        ⟨"high_value_review", false, none, [], 0⟩
  | none => ⟨"high_value_review", false, none, [], 0⟩

/-- Embeds `_missing_location_rule` (Engine.py). -/
def _missing_location_rule (txn : TransactionRequest) : RuleResult :=
  match txn.location with
  | none =>
      ⟨"missing_location", true, some "REVIEW",
        ["Missing transaction location"], 20⟩
  | some _ => ⟨"missing_location", false, none, [], 0⟩

/-- Embeds `_missing_device_rule` (Engine.py). -/
def _missing_device_rule (txn : TransactionRequest) : RuleResult :=
  match txn.device_id with
  | none =>
      ⟨"missing_device_id", true, some "REVIEW",
        ["Missing device identifier"], 20⟩
  | some _ => ⟨"missing_device_id", false, none, [], 0⟩

/-- Embeds the rule registry `ALL_RULES` (Engine.py), in source order. -/
def ALL_RULES : List Rule :=
  [_amount_non_positive_rule,
   _max_amount_rule,
   _high_value_review_rule,
   _missing_location_rule,
   _missing_device_rule]

/-- Embeds the dict `decision_priority` together with the
`.get(res.decision, -1)` lookup used in `run_rules` (Engine.py):
DECLINE maps to 2, REVIEW to 1, APPROVE to 0, anything else to -1. -/
def decision_priority (d : Option Decision) : Int :=
  match d with
  | some s =>
      if s = "DECLINE" then 2
      else if s = "REVIEW" then 1
      else if s = "APPROVE" then 0
      else -1
  | none => -1

/-- The mutable loop state of the decision loop in `run_rules`
(Engine.py): `best_score`, `best_severity` and `final_decision`. -/
structure CombState where
  best_score : Int
  best_severity : Int
  final_decision : Decision
deriving Repr, DecidableEq

/-- One iteration of the decision loop in `run_rules` (Engine.py):
skip outcomes that did not hit or carry no suggested decision, and
adopt an outcome when its score beats the best score, or ties it with
a strictly higher severity. -/
def combineStep (s : CombState) (res : RuleResult) : CombState :=
  match res.decision, res.hit with
  | some d, true =>
      let score := decision_priority (some d)
      if score > s.best_score ∨
          (score = s.best_score ∧ res.severity > s.best_severity) then
        ⟨score, res.severity, d⟩
      else s
  | _, _ => s

/-- One iteration of the reason-collection loop in `run_rules`
(Engine.py): `if res.hit and res.reasons: final_reasons.extend(...)`.
The Python truthiness test on `res.reasons` is a non-emptiness test. -/
def reasonStep (acc : ReasonList) (res : RuleResult) : ReasonList :=
  if res.hit && !res.reasons.isEmpty then acc ++ res.reasons else acc

/-- The combination logic of `run_rules` (Engine.py) factored over an
arbitrary outcome list: collect reasons from all hit outcomes, run the
priority/severity decision loop from the default state (score of
APPROVE, severity -1, decision APPROVE), and fall back to the single
default reason when no reasons were collected. -/
def combine (results : List RuleResult) : Decision × ReasonList :=
  let final_reasons := results.foldl reasonStep []
  let st : CombState :=
    results.foldl combineStep
      ⟨decision_priority (some "APPROVE"), -1, "APPROVE"⟩
  let final_reasons :=
    if final_reasons.isEmpty then
      ["No rules triggered; default APPROVE decision"]
    else final_reasons
  (st.final_decision, final_reasons)

/-- The evaluation step of `run_rules` (Engine.py):
`results = [rule(txn) for rule in ALL_RULES]`. -/
def evaluate (txn : TransactionRequest) : List RuleResult :=
  ALL_RULES.map (fun rule => rule txn)

/-- Embeds `run_rules` (Engine.py): evaluate every registered rule,
then combine the outcomes into one decision plus a reason list. -/
def run_rules (txn : TransactionRequest) : Decision × ReasonList :=
  combine (evaluate txn)

/-- A rule that may raise: the Python evaluation of `rule(txn)` inside
the list comprehension of `run_rules` either returns a `RuleResult` or
raises an exception. -/
abbrev RuleExc := TransactionRequest → Except String RuleResult

/-- Embeds the behavior of `run_rules` (Engine.py) when rules may
raise: the list comprehension `[rule(txn) for rule in ALL_RULES]` has
no try/except around it, so the first exception propagates and aborts
the whole evaluation; this is exactly `List.mapM` in `Except`. -/
def run_rules_exc (rules : List RuleExc) (txn : TransactionRequest) :
    Except String (Decision × ReasonList) := do
  let results ← rules.mapM (fun rule => rule txn)
  pure (combine results)

/-- Instrumented loop state: like `CombState` but also recording the
position (in registry order) of the outcome whose decision is
currently adopted. Used only to state which outcome a tie resolves to;
its decision component follows the source loop exactly. -/
structure CombStateIdx where
  best_score : Int
  best_severity : Int
  final_decision : Decision
  adopted : Option Nat
deriving Repr, DecidableEq

/-- One iteration of the instrumented decision loop: identical tests
to `combineStep`, additionally recording the adopted index. -/
def combineStepIdx (s : CombStateIdx) (ir : Nat × RuleResult) :
    CombStateIdx :=
  match ir.2.decision, ir.2.hit with
  | some d, true =>
      let score := decision_priority (some d)
      if score > s.best_score ∨
          (score = s.best_score ∧ ir.2.severity > s.best_severity) then
        ⟨score, ir.2.severity, d, some ir.1⟩
      else s
  | _, _ => s

/-- The instrumented decision loop over an outcome list. -/
def combineIdx (results : List RuleResult) : CombStateIdx :=
  results.enum.foldl combineStepIdx
    ⟨decision_priority (some "APPROVE"), -1, "APPROVE", none⟩

/-- Embeds `_run_basic_rules` from `src/Interface/authorize.py`.
It returns early (short-circuits) on a non-positive amount; otherwise
it applies the amount tiers, appends the geo / device reasons, and
falls back to the single default reason. Comparing a missing amount
would raise a TypeError in Python, embedded as `none`. -/
def _run_basic_rules (txn : TransactionRequest) :
    Option (Decision × ReasonList) :=
  match txn.amount with
  | none => none
  | some a =>
      if a ≤ 0 then
        some ("DECLINE", ["Invalid transaction amount (<= 0)"])
      else
        let dr : Decision × ReasonList :=
          if 100000 < a then
            ("DECLINE", ["Amount exceeds maximum allowed limit"])
          else if 50000 < a then
            ("REVIEW", ["High-value transaction requires manual review"])
          else ("APPROVE", [])
        let reasons :=
          if txn.location = none then
            dr.2 ++ ["Missing transaction location"]
          else dr.2
        let reasons :=
          if txn.device_id = none then
            reasons ++ ["Missing device identifier"]
          else reasons
        let reasons :=
          if reasons.isEmpty then ["Passed basic rules"] else reasons
        some (dr.1, reasons)

/-- Embeds `authorize_transaction` (authorize.py): run the basic rules
and tag every reason with the `[rules]` origin marker. -/
def authorize_transaction (transaction_id : String)
    (txn : TransactionRequest) : Option (Decision × ReasonList) :=
  match _run_basic_rules txn with
  | none => none
  | some (d, rs) => some (d, rs.map (fun r => "[rules] " ++ r))

/-- Embeds a raw request payload (a Python dict) as consumed by
`TransactionValidator.validate` (validator.py); `none` models an
absent key. -/
structure RawTransaction where
  user_id : Option String
  amount : Option ℚ
  merchant_id : Option String
  timestamp : Option String
  currency : Option String
  device_id : Option String
  location : Option String
deriving Repr, DecidableEq

/-- Embeds `TransactionValidator.validate` (validator.py): check the
required fields in declaration order, then reject a non-positive
amount, then build the normalized `TransactionRequest` (currency
defaults to INR). -/
def TransactionValidator.validate (txn : RawTransaction) :
    Except String TransactionRequest :=
  match txn.user_id with
  | none => Except.error "Missing required field: user_id"
  | some uid =>
    match txn.amount with
    | none => Except.error "Missing required field: amount"
    | some a =>
      match txn.merchant_id with
      | none => Except.error "Missing required field: merchant_id"
      | some mid =>
        match txn.timestamp with
        | none => Except.error "Missing required field: timestamp"
        | some ts =>
          if a ≤ 0 then
            Except.error "Transaction amount must be positive"
          else
            Except.ok
              ⟨uid, some a, mid, ts, txn.currency.getD "INR",
                txn.device_id, txn.location⟩

/-- Embeds `handle_transaction` (handler.py) up to its decision and
reason content: validate the raw payload, then authorize. The random
transaction id attached to the response does not influence the
decision or reasons and is omitted. A validation error propagates to
the caller; the `none` branch of `authorize_transaction` (a missing
amount after validation) is unreachable. -/
def handle_transaction (raw : RawTransaction) :
    Except String (Decision × ReasonList) := do
  let txn ← TransactionValidator.validate raw
  match authorize_transaction "txn-id" txn with
  | some r => pure r
  | none => Except.error "TypeError: comparison with missing amount"

/-! ### Proof infrastructure -/

/-- The score the decision loop assigns to an outcome: the priority of
the suggested decision when the outcome hit, otherwise -1 (an outcome
the loop skips can never beat the non-negative running best score). -/
def scoreOf (r : RuleResult) : Int :=
  if r.hit then decision_priority r.decision else -1

/-- Reads a best score back as the decision string the loop stores
alongside it. -/
def decodeScore (k : Int) : Decision :=
  if k = 2 then "DECLINE" else if k = 1 then "REVIEW" else "APPROVE"

lemma decision_priority_le_two (d : Option Decision) :
    decision_priority d ≤ 2 := by
  cases d with
  | none => norm_num [decision_priority]
  | some s => simp only [decision_priority]; split_ifs <;> norm_num

lemma scoreOf_le_two (r : RuleResult) : scoreOf r ≤ 2 := by
  unfold scoreOf
  split_ifs
  · exact decision_priority_le_two _
  · omega

lemma decision_priority_eq_decode (d : Decision)
    (h : 0 ≤ decision_priority (some d)) :
    decodeScore (decision_priority (some d)) = d := by
  by_cases h1 : d = "DECLINE"
  · subst h1; decide
  · by_cases h2 : d = "REVIEW"
    · subst h2; decide
    · by_cases h3 : d = "APPROVE"
      · subst h3; decide
      · exfalso
        simp [decision_priority, h1, h2, h3] at h

lemma combineStep_score_eq_max (s : CombState) (r : RuleResult)
    (h0 : 0 ≤ s.best_score) :
    (combineStep s r).best_score = max s.best_score (scoreOf r) := by
  rcases hd : r.decision with _ | d
  · have hs : scoreOf r = -1 := by simp [scoreOf, hd, decision_priority]
    have hstep : combineStep s r = s := by
      cases hh : r.hit <;> simp [combineStep, hd, hh]
    rw [hstep, hs]
    exact (max_eq_left (by omega)).symm
  · cases hh : r.hit
    · have hs : scoreOf r = -1 := by simp [scoreOf, hh]
      have hstep : combineStep s r = s := by simp [combineStep, hd, hh]
      rw [hstep, hs]
      exact (max_eq_left (by omega)).symm
    · have hs : scoreOf r = decision_priority (some d) := by
        simp [scoreOf, hh, hd]
      simp only [combineStep, hd, hh]
      split_ifs with hc
      · show decision_priority (some d) = max s.best_score (scoreOf r)
        rw [hs]
        rcases hc with hc | ⟨hc, _⟩
        · exact (max_eq_right (le_of_lt hc)).symm
        · rw [← hc, max_self]
      · rw [hs]
        exact (max_eq_left (by omega)).symm

lemma combineStep_decode (s : CombState) (r : RuleResult)
    (h0 : 0 ≤ s.best_score) (hd : s.final_decision = decodeScore s.best_score) :
    (combineStep s r).final_decision =
      decodeScore (combineStep s r).best_score := by
  rcases hdec : r.decision with _ | d
  · simpa [combineStep, hdec] using hd
  · cases hh : r.hit
    · simpa [combineStep, hdec, hh] using hd
    · simp only [combineStep, hdec, hh]
      split_ifs with hc
      · have hp : 0 ≤ decision_priority (some d) := by
          rcases hc with hc | ⟨hc, _⟩ <;> omega
        simpa using (decision_priority_eq_decode d hp).symm
      · exact hd

lemma foldl_combineStep_spec (l : List RuleResult) (s : CombState)
    (h0 : 0 ≤ s.best_score)
    (hd : s.final_decision = decodeScore s.best_score) :
    (l.foldl combineStep s).best_score =
        l.foldl (fun m r => max m (scoreOf r)) s.best_score ∧
      0 ≤ (l.foldl combineStep s).best_score ∧
      (l.foldl combineStep s).final_decision =
        decodeScore (l.foldl combineStep s).best_score := by
  induction l generalizing s with
  | nil => exact ⟨rfl, h0, hd⟩
  | cons r l ih =>
    have h0' : 0 ≤ (combineStep s r).best_score := by
      rw [combineStep_score_eq_max s r h0]
      exact le_max_of_le_left h0
    have hd' := combineStep_decode s r h0 hd
    have hrec := ih (combineStep s r) h0' hd'
    simpa [List.foldl_cons, combineStep_score_eq_max s r h0] using hrec

lemma decision_priority_approve : decision_priority (some "APPROVE") = 0 := by
  decide

/-- The decision component of `combine` is the decode of the maximal
outcome score; the running decision loop computes exactly this. -/
lemma combine_fst (l : List RuleResult) :
    (combine l).1 =
      decodeScore (l.foldl (fun m r => max m (scoreOf r)) 0) := by
  have h0 : (0 : Int) ≤ decision_priority (some "APPROVE") := by
    rw [decision_priority_approve]
  have hd : ("APPROVE" : Decision) =
      decodeScore (decision_priority (some "APPROVE")) := by decide
  have hspec := foldl_combineStep_spec l
    ⟨decision_priority (some "APPROVE"), -1, "APPROVE"⟩ h0 hd
  show (l.foldl combineStep
      ⟨decision_priority (some "APPROVE"), -1, "APPROVE"⟩).final_decision = _
  rw [hspec.2.2, hspec.1]
  rw [decision_priority_approve]

lemma foldl_max_le_two (l : List RuleResult) (m : Int) (hm : m ≤ 2) :
    l.foldl (fun m r => max m (scoreOf r)) m ≤ 2 := by
  induction l generalizing m with
  | nil => exact hm
  | cons r l ih =>
    refine ih _ ?_
    have := scoreOf_le_two r
    simp only [max_def]
    split_ifs <;> omega

lemma foldl_max_ge (l : List RuleResult) (m : Int) :
    m ≤ l.foldl (fun m r => max m (scoreOf r)) m := by
  induction l generalizing m with
  | nil => exact le_rfl
  | cons r l ih =>
    refine le_trans ?_ (ih (max m (scoreOf r)))
    exact le_max_left _ _

/-! ### Claims -/

/-- C1 (priority dominance): for every outcome set containing at least
one hit outcome whose suggested decision is DECLINE, the final
decision produced by the combinator is DECLINE, regardless of how many
other hit outcomes suggest REVIEW or APPROVE and of their
severities. -/
theorem priority_dominance (l : List RuleResult)
    (h : ∃ r ∈ l, r.hit = true ∧ r.decision = some "DECLINE") :
    (combine l).1 = "DECLINE" := by
  rw [combine_fst]
  obtain ⟨r, hr, hh, hdec⟩ := h
  obtain ⟨l₁, l₂, rfl⟩ := List.append_of_mem hr
  rw [List.foldl_append, List.foldl_cons]
  have hsr : scoreOf r = 2 := by
    simp [scoreOf, hh, hdec, decision_priority]
  have hB : l₁.foldl (fun m r => max m (scoreOf r)) 0 ≤ 2 :=
    foldl_max_le_two _ _ (by omega)
  have h2 : max (l₁.foldl (fun m r => max m (scoreOf r)) 0) (scoreOf r) = 2 := by
    rw [hsr]
    exact max_eq_right hB
  rw [h2]
  have hle := foldl_max_le_two l₂ 2 le_rfl
  have hge := foldl_max_ge l₂ 2
  have heq : l₂.foldl (fun m r => max m (scoreOf r)) 2 = 2 :=
    le_antisymm hle hge
  rw [heq]
  decide

/-- Witness for C1: one severity-999 REVIEW hit and one severity-0
DECLINE hit still combine to DECLINE. -/
theorem priority_dominance_witness :
    (combine [⟨"rev", true, some "REVIEW", ["r"], 999⟩,
              ⟨"dec", true, some "DECLINE", ["d"], 0⟩]).1 = "DECLINE" :=
  priority_dominance _
    ⟨⟨"dec", true, some "DECLINE", ["d"], 0⟩, by decide, rfl, rfl⟩

lemma foldl_max_scoreOf_perm {l₁ l₂ : List RuleResult} (h : l₁.Perm l₂) :
    ∀ m : Int, l₁.foldl (fun m r => max m (scoreOf r)) m =
      l₂.foldl (fun m r => max m (scoreOf r)) m := by
  induction h with
  | nil => intro m; rfl
  | cons x h ih => intro m; simp only [List.foldl_cons]; exact ih _
  | swap x y l =>
    intro m
    simp only [List.foldl_cons]
    congr 1
    rw [max_assoc, max_comm (scoreOf y) (scoreOf x), ← max_assoc]
  | trans h₁ h₂ ih₁ ih₂ => intro m; rw [ih₁, ih₂]

/-- C4 (order-independence of the decision): for every outcome set and
every permutation of it, the combinator yields the same final
decision; registration order may change only the order of the reason
texts, never which of APPROVE, REVIEW or DECLINE is returned. -/
theorem decision_order_independent (l₁ l₂ : List RuleResult)
    (h : l₁.Perm l₂) : (combine l₁).1 = (combine l₂).1 := by
  rw [combine_fst, combine_fst, foldl_max_scoreOf_perm h]

/-- Witness for C4: swapping a DECLINE hit and a REVIEW hit leaves
the combined decision unchanged. -/
theorem decision_order_independent_witness :
    (combine [⟨"dec", true, some "DECLINE", ["d"], 0⟩,
              ⟨"rev", true, some "REVIEW", ["r"], 999⟩]).1 =
      (combine [⟨"rev", true, some "REVIEW", ["r"], 999⟩,
                ⟨"dec", true, some "DECLINE", ["d"], 0⟩]).1 :=
  decision_order_independent _ _ (by decide)

lemma combineStepIdx_eligible (s : CombStateIdx) (i : Nat) (r : RuleResult)
    (d : Decision) (hh : r.hit = true) (hd : r.decision = some d) :
    combineStepIdx s (i, r) =
      if decision_priority (some d) > s.best_score ∨
          (decision_priority (some d) = s.best_score ∧
            r.severity > s.best_severity)
      then ⟨decision_priority (some d), r.severity, d, some i⟩
      else s := by
  simp only [combineStepIdx, hd, hh]

lemma combineStep_eligible (s : CombState) (r : RuleResult)
    (d : Decision) (hh : r.hit = true) (hd : r.decision = some d) :
    combineStep s r =
      if decision_priority (some d) > s.best_score ∨
          (decision_priority (some d) = s.best_score ∧
            r.severity > s.best_severity)
      then ⟨decision_priority (some d), r.severity, d⟩
      else s := by
  simp only [combineStep, hd, hh]

/-- C2 (tie-break determinism): for two hit outcomes whose suggested
decisions have equal priority class, the combinator adopts the one
with strictly higher severity, and on equal severities the one
evaluated earlier (index 0); the strict comparisons never replace the
current best on equality. The adopted index is read off the
instrumented loop, which performs exactly the tests of the source loop. -/
theorem tie_break_determinism (a b : RuleResult) (da db : Decision)
    (hah : a.hit = true) (hbh : b.hit = true)
    (had : a.decision = some da) (hbd : b.decision = some db)
    (hp : decision_priority a.decision = decision_priority b.decision)
    (hp0 : 0 ≤ decision_priority a.decision)
    (has : 0 ≤ a.severity) (hbs : 0 ≤ b.severity) :
    (combineIdx [a, b]).adopted =
        some (if a.severity < b.severity then 1 else 0) ∧
      (combine [a, b]).1 = (if a.severity < b.severity then db else da) := by
  rw [had] at hp hp0
  rw [hbd] at hp
  have e1 : combineStepIdx ⟨0, -1, "APPROVE", none⟩ (0, a) =
      ⟨decision_priority (some da), a.severity, da, some 0⟩ := by
    rw [combineStepIdx_eligible _ _ _ _ hah had]
    have hcond : decision_priority (some da) > (0 : Int) ∨
        (decision_priority (some da) = (0 : Int) ∧
          a.severity > (-1 : Int)) := by omega
    exact if_pos hcond
  have e2 : combineStepIdx
      ⟨decision_priority (some da), a.severity, da, some 0⟩ (1, b) =
      if a.severity < b.severity
        then ⟨decision_priority (some db), b.severity, db, some 1⟩
        else ⟨decision_priority (some da), a.severity, da, some 0⟩ := by
    rw [combineStepIdx_eligible _ _ _ _ hbh hbd]
    by_cases hsev : a.severity < b.severity
    · rw [if_pos hsev]
      have hcond : decision_priority (some db) > decision_priority (some da) ∨
          (decision_priority (some db) = decision_priority (some da) ∧
            b.severity > a.severity) := by omega
      exact if_pos hcond
    · rw [if_neg hsev]
      have hcond : ¬ (decision_priority (some db) > decision_priority (some da) ∨
          (decision_priority (some db) = decision_priority (some da) ∧
            b.severity > a.severity)) := by omega
      exact if_neg hcond
  have hci : combineIdx [a, b] =
      if a.severity < b.severity
        then ⟨decision_priority (some db), b.severity, db, some 1⟩
        else ⟨decision_priority (some da), a.severity, da, some 0⟩ := by
    show List.foldl combineStepIdx
        ⟨decision_priority (some "APPROVE"), -1, "APPROVE", none⟩
        [(0, a), (1, b)] = _
    rw [decision_priority_approve, List.foldl_cons, e1, List.foldl_cons, e2,
      List.foldl_nil]
  have f1 : combineStep ⟨0, -1, "APPROVE"⟩ a =
      ⟨decision_priority (some da), a.severity, da⟩ := by
    rw [combineStep_eligible _ _ _ hah had]
    have hcond : decision_priority (some da) > (0 : Int) ∨
        (decision_priority (some da) = (0 : Int) ∧
          a.severity > (-1 : Int)) := by omega
    exact if_pos hcond
  have f2 : combineStep ⟨decision_priority (some da), a.severity, da⟩ b =
      if a.severity < b.severity
        then ⟨decision_priority (some db), b.severity, db⟩
        else ⟨decision_priority (some da), a.severity, da⟩ := by
    rw [combineStep_eligible _ _ _ hbh hbd]
    by_cases hsev : a.severity < b.severity
    · rw [if_pos hsev]
      have hcond : decision_priority (some db) > decision_priority (some da) ∨
          (decision_priority (some db) = decision_priority (some da) ∧
            b.severity > a.severity) := by omega
      exact if_pos hcond
    · rw [if_neg hsev]
      have hcond : ¬ (decision_priority (some db) > decision_priority (some da) ∨
          (decision_priority (some db) = decision_priority (some da) ∧
            b.severity > a.severity)) := by omega
      exact if_neg hcond
  have hcf : (combine [a, b]).1 =
      (if a.severity < b.severity
        then (⟨decision_priority (some db), b.severity, db⟩ : CombState)
        else ⟨decision_priority (some da), a.severity, da⟩).final_decision := by
    show (List.foldl combineStep
        ⟨decision_priority (some "APPROVE"), -1, "APPROVE"⟩
        [a, b]).final_decision = _
    rw [decision_priority_approve, List.foldl_cons, f1, List.foldl_cons, f2,
      List.foldl_nil]
  refine ⟨?_, ?_⟩
  · rw [hci]
    by_cases hsev : a.severity < b.severity <;> simp [hsev]
  · rw [hcf]
    by_cases hsev : a.severity < b.severity <;> simp [hsev]

/-- Witness for C2: two REVIEW hits, severities 5 and 7 — the second,
higher-severity outcome is adopted and the decision is REVIEW. -/
theorem tie_break_determinism_witness :
    (combineIdx [⟨"a", true, some "REVIEW", [], 5⟩,
                 ⟨"b", true, some "REVIEW", [], 7⟩]).adopted = some 1 ∧
      (combine [⟨"a", true, some "REVIEW", [], 5⟩,
                ⟨"b", true, some "REVIEW", [], 7⟩]).1 = "REVIEW" := by
  have h := tie_break_determinism
    ⟨"a", true, some "REVIEW", [], 5⟩ ⟨"b", true, some "REVIEW", [], 7⟩
    "REVIEW" "REVIEW" rfl rfl rfl rfl (by decide) (by decide)
    (by decide) (by decide)
  simpa using h

lemma foldl_reasonStep (l : List RuleResult) (acc : ReasonList) :
    l.foldl reasonStep acc =
      acc ++ ((l.filter (fun r => r.hit)).map (fun r => r.reasons)).flatten := by
  induction l generalizing acc with
  | nil => simp
  | cons r l ih =>
    rw [List.foldl_cons, ih]
    cases hh : r.hit
    · simp [reasonStep, hh]
    · cases he : r.reasons.isEmpty
      · simp [reasonStep, hh, he, List.append_assoc]
      · have hr : r.reasons = [] := List.isEmpty_iff.mp he
        simp [reasonStep, hh, he, hr]

/-- The reason component of `combine`: the concatenation, in list
order, of the reasons of the hit outcomes, replaced by the single
default string when that concatenation is empty. -/
lemma combine_snd (l : List RuleResult) :
    (combine l).2 =
      if (((l.filter (fun r => r.hit)).map (fun r => r.reasons)).flatten).isEmpty
        then ["No rules triggered; default APPROVE decision"]
        else ((l.filter (fun r => r.hit)).map (fun r => r.reasons)).flatten := by
  have h := foldl_reasonStep l []
  rw [List.nil_append] at h
  show (if (l.foldl reasonStep []).isEmpty
      then ["No rules triggered; default APPROVE decision"]
      else l.foldl reasonStep []) = _
  rw [h]

/-- C3 counterexample: for the outcome set consisting of one hit
outcome with an empty reason list, the combinator emits the single
default reason, so the final reason list is not the concatenation of
the reasons of the hit outcomes (which is empty) and its length (1)
differs from the summed reason counts of the hit outcomes (0). -/
theorem reason_completeness_cex :
    (combine [⟨"r", true, some "DECLINE", [], 5⟩]).2 =
        ["No rules triggered; default APPROVE decision"] ∧
      ((([⟨"r", true, some "DECLINE", [], 5⟩] : List RuleResult).filter
          (fun r => r.hit)).map (fun r => r.reasons)).flatten = [] ∧
      (combine [⟨"r", true, some "DECLINE", [], 5⟩]).2.length ≠
        ((([⟨"r", true, some "DECLINE", [], 5⟩] : List RuleResult).filter
            (fun r => r.hit)).map (fun r => r.reasons.length)).sum := by
  decide

/-- C3 (corrected): for every outcome set in which at least one hit
outcome carries a nonempty reason list, the final reason list is the
concatenation, in registry evaluation order, of the reasons of every
hit outcome, and its length is the sum of the reason counts of the
hit outcomes, independently of which suggested decision wins. -/
theorem reason_completeness (l : List RuleResult)
    (h : ∃ r ∈ l, r.hit = true ∧ r.reasons ≠ []) :
    (combine l).2 =
        ((l.filter (fun r => r.hit)).map (fun r => r.reasons)).flatten ∧
      (combine l).2.length =
        ((l.filter (fun r => r.hit)).map (fun r => r.reasons.length)).sum := by
  obtain ⟨r, hr, hh, hne⟩ := h
  have hflat :
      ((l.filter (fun r => r.hit)).map (fun r => r.reasons)).flatten ≠ [] := by
    intro hcontra
    rw [List.flatten_eq_nil_iff] at hcontra
    apply hne
    apply hcontra
    exact List.mem_map_of_mem _ (List.mem_filter.mpr ⟨hr, hh⟩)
  have h2 := combine_snd l
  rw [if_neg (by simpa [List.isEmpty_iff] using hflat)] at h2
  refine ⟨h2, ?_⟩
  rw [h2, List.length_flatten, List.map_map]
  rfl

/-- Witness for C3: one hit outcome with one reason — the final list
is that one reason and the lengths agree. -/
theorem reason_completeness_witness :
    (combine [⟨"a", true, some "REVIEW", ["x"], 1⟩]).2 =
        ((([⟨"a", true, some "REVIEW", ["x"], 1⟩] : List RuleResult).filter
          (fun r => r.hit)).map (fun r => r.reasons)).flatten ∧
      (combine [⟨"a", true, some "REVIEW", ["x"], 1⟩]).2.length =
        ((([⟨"a", true, some "REVIEW", ["x"], 1⟩] : List RuleResult).filter
          (fun r => r.hit)).map (fun r => r.reasons.length)).sum :=
  reason_completeness _
    ⟨⟨"a", true, some "REVIEW", ["x"], 1⟩, by decide, rfl, by decide⟩

/-- C5 counterexample: `_run_basic_rules` from the Interface layer
returns immediately on a non-positive amount, so for a transaction
with amount -5 and no location, the missing-location check never runs
and its reason text is absent from the output. -/
theorem no_short_circuit_cex :
    _run_basic_rules ⟨"u", some (-5), "m", "t", "INR", none, none⟩ =
        some ("DECLINE", ["Invalid transaction amount (<= 0)"]) ∧
      (((_run_basic_rules ⟨"u", some (-5), "m", "t", "INR", none, none⟩).getD
          ("", [])).2.contains "Missing transaction location") = false := by
  decide

/-- C5 (corrected): `run_rules` invokes every registered rule exactly
once — the outcome list is the pointwise application of the registry —
and never short-circuits: whenever the location is missing, the
missing-location reason appears in the output, even when an earlier
rule already forces a DECLINE; `_run_basic_rules`, however, does
return early on a non-positive amount. -/
theorem no_short_circuit (txn : TransactionRequest) :
    evaluate txn =
        [_amount_non_positive_rule txn, _max_amount_rule txn,
         _high_value_review_rule txn, _missing_location_rule txn,
         _missing_device_rule txn] ∧
      (txn.location = none →
        "Missing transaction location" ∈ (run_rules txn).2) := by
  refine ⟨rfl, fun hloc => ?_⟩
  have hrule : _missing_location_rule txn =
      ⟨"missing_location", true, some "REVIEW",
        ["Missing transaction location"], 20⟩ := by
    simp [_missing_location_rule, hloc]
  have hmem : _missing_location_rule txn ∈ evaluate txn := by
    simp [evaluate, ALL_RULES]
  have hmemflat : "Missing transaction location" ∈
      (((evaluate txn).filter (fun r => r.hit)).map
        (fun r => r.reasons)).flatten := by
    rw [List.mem_flatten]
    refine ⟨["Missing transaction location"], ?_, by simp⟩
    refine List.mem_map.mpr ⟨_missing_location_rule txn, ?_, by rw [hrule]⟩
    exact List.mem_filter.mpr ⟨hmem, by rw [hrule]⟩
  have hne : ¬ ((((evaluate txn).filter (fun r => r.hit)).map
      (fun r => r.reasons)).flatten).isEmpty = true := by
    simp only [List.isEmpty_iff]
    intro hcontra
    rw [hcontra] at hmemflat
    simp at hmemflat
  have h2 := combine_snd (evaluate txn)
  rw [if_neg hne] at h2
  show "Missing transaction location" ∈ (combine (evaluate txn)).2
  rw [h2]
  exact hmemflat

/-- Witness for C5: with amount -5 (an early DECLINE-forcing hit) and
no location, the missing-location reason still appears. -/
theorem no_short_circuit_witness :
    "Missing transaction location" ∈
      (run_rules ⟨"u", some (-5), "m", "t", "INR", none, none⟩).2 :=
  (no_short_circuit _).2 rfl

/-- C7 counterexample: a registry whose first rule raises and whose
second rule would hit with a reason. The evaluation aborts with the
exception; no DecisionResult is returned and the outcome of the
second rule is absent, contradicting record-and-continue isolation. -/
theorem rule_fault_isolation_cex :
    run_rules_exc
        [fun _ => Except.error "boom",
         fun txn => Except.ok (_missing_location_rule txn)]
        ⟨"u", some 10, "m", "t", "INR", none, none⟩ =
      Except.error "boom" ∧
      (run_rules_exc
        [fun _ => Except.error "boom",
         fun txn => Except.ok (_missing_location_rule txn)]
        ⟨"u", some 10, "m", "t", "INR", none, none⟩).toOption = none := by
  constructor <;> rfl

/-- C7 (corrected): when a registered rule raises during evaluation,
the exception propagates to the caller unchanged — the evaluation
aborts, no DecisionResult is produced, and the outcomes of the
remaining rules (and of the rules that already succeeded) are
discarded; the fault is not silently dropped, but neither is it
isolated. -/
theorem rule_fault_aborts (pre post : List RuleExc) (msg : String)
    (txn : TransactionRequest)
    (h : ∀ r ∈ pre, ∃ v, r txn = Except.ok v) :
    run_rules_exc (pre ++ (fun _ => Except.error msg) :: post) txn =
      Except.error msg := by
  induction pre with
  | nil =>
    show (do
        let results ← List.mapM (fun rule => rule txn)
          ((fun _ => Except.error msg) :: post)
        pure (combine results) : Except String (Decision × ReasonList)) =
      Except.error msg
    rw [List.mapM_cons]
    rfl
  | cons r pre ih =>
    obtain ⟨v, hv⟩ := h r (by simp)
    have hrest := ih (fun r hr => h r (by simp [hr]))
    show (do
        let results ← List.mapM (fun rule => rule txn)
          ((r :: pre) ++ (fun _ => Except.error msg) :: post)
        pure (combine results) : Except String (Decision × ReasonList)) =
      Except.error msg
    rw [List.cons_append, List.mapM_cons, hv]
    revert hrest
    show run_rules_exc (pre ++ (fun _ => Except.error msg) :: post) txn =
        Except.error msg → _
    cases hm : List.mapM (fun rule => rule txn)
        (pre ++ (fun _ => Except.error msg) :: post) with
    | error e =>
      intro hrest
      have hre : run_rules_exc (pre ++ (fun _ => Except.error msg) :: post)
          txn = Except.error e := by
        simp only [run_rules_exc, hm]
        rfl
      rw [hre] at hrest
      exact hrest
    | ok vs =>
      intro hrest
      have hre : run_rules_exc (pre ++ (fun _ => Except.error msg) :: post)
          txn = Except.ok (combine vs) := by
        simp only [run_rules_exc, hm]
        rfl
      rw [hre] at hrest
      simp at hrest

/-- Witness for C7: a succeeding first rule followed by a raising
second rule — the whole evaluation still errors. -/
theorem rule_fault_aborts_witness :
    run_rules_exc
        [fun txn => Except.ok (_amount_non_positive_rule txn),
         fun _ => Except.error "boom",
         fun txn => Except.ok (_missing_device_rule txn)]
        ⟨"u", some 10, "m", "t", "INR", none, none⟩ =
      Except.error "boom" := by
  have h := rule_fault_aborts
    [fun txn => Except.ok (_amount_non_positive_rule txn)]
    [fun txn => Except.ok (_missing_device_rule txn)] "boom"
    ⟨"u", some 10, "m", "t", "INR", none, none⟩
    (by
      intro r hr
      simp only [List.mem_singleton] at hr
      subst hr
      exact ⟨_, rfl⟩)
  exact h

/-- C6 (ValidationFault on bad amount): for every raw payload whose
amount is missing or non-positive, validation fails before any rule
runs — `handle_transaction` propagates the same validation error to
the caller and produces no decision. -/
theorem validation_fault (raw : RawTransaction)
    (h : raw.amount = none ∨ ∃ a, raw.amount = some a ∧ a ≤ 0) :
    ∃ msg, TransactionValidator.validate raw = Except.error msg ∧
      handle_transaction raw = Except.error msg := by
  have hval : ∃ msg, TransactionValidator.validate raw = Except.error msg := by
    cases hu : raw.user_id with
    | none =>
      exact ⟨"Missing required field: user_id",
        by simp [TransactionValidator.validate, hu]⟩
    | some uid =>
      rcases h with hnone | ⟨a, ha, hle⟩
      · exact ⟨"Missing required field: amount",
          by simp [TransactionValidator.validate, hu, hnone]⟩
      · cases hm : raw.merchant_id with
        | none =>
          exact ⟨"Missing required field: merchant_id",
            by simp [TransactionValidator.validate, hu, ha, hm]⟩
        | some mid =>
          cases ht : raw.timestamp with
          | none =>
            exact ⟨"Missing required field: timestamp",
              by simp [TransactionValidator.validate, hu, ha, hm, ht]⟩
          | some ts =>
            exact ⟨"Transaction amount must be positive",
              by simp [TransactionValidator.validate, hu, ha, hm, ht, hle]⟩
  obtain ⟨msg, hmsg⟩ := hval
  refine ⟨msg, hmsg, ?_⟩
  simp only [handle_transaction, hmsg]
  rfl

/-- Witness for C6: amount -5 with all required fields present —
validation fails with the non-positive-amount message and the handler
returns that error, not a decision. -/
theorem validation_fault_witness :
    TransactionValidator.validate
        ⟨some "u", some (-5), some "m", some "t", none, none, none⟩ =
      Except.error "Transaction amount must be positive" ∧
      handle_transaction
        ⟨some "u", some (-5), some "m", some "t", none, none, none⟩ =
      Except.error "Transaction amount must be positive" := by
  obtain ⟨msg, h1, h2⟩ := validation_fault
    ⟨some "u", some (-5), some "m", some "t", none, none, none⟩
    (Or.inr ⟨-5, rfl, by norm_num⟩)
  have hc : TransactionValidator.validate
      ⟨some "u", some (-5), some "m", some "t", none, none, none⟩ =
      Except.error "Transaction amount must be positive" := by rfl
  rw [h1] at hc
  cases hc
  exact ⟨h1, h2⟩

lemma foldl_combineStep_all_miss (l : List RuleResult) (s : CombState)
    (h : ∀ r ∈ l, r.hit = false) : l.foldl combineStep s = s := by
  induction l generalizing s with
  | nil => rfl
  | cons r l ih =>
    have hr : r.hit = false := h r (by simp)
    have hstep : combineStep s r = s := by
      rcases hd : r.decision with _ | d <;> simp [combineStep, hd, hr]
    rw [List.foldl_cons, hstep]
    exact ih _ (fun r hmem => h r (by simp [hmem]))

/-- C8 (default on all-miss): when no registered rule hits, the engine
returns APPROVE with exactly the single default explanatory reason. -/
theorem default_on_all_miss (txn : TransactionRequest)
    (h : ∀ res ∈ evaluate txn, res.hit = false) :
    run_rules txn =
      ("APPROVE", ["No rules triggered; default APPROVE decision"]) := by
  have hfilter : (evaluate txn).filter (fun r => r.hit) = [] := by
    rw [List.filter_eq_nil_iff]
    intro r hr
    simp [h r hr]
  have hfst : (run_rules txn).1 = "APPROVE" := by
    show (List.foldl combineStep
        ⟨decision_priority (some "APPROVE"), -1, "APPROVE"⟩
        (evaluate txn)).final_decision = _
    rw [foldl_combineStep_all_miss _ _ h]
  have hsnd : (run_rules txn).2 =
      ["No rules triggered; default APPROVE decision"] := by
    show (combine (evaluate txn)).2 = _
    rw [combine_snd, hfilter]
    rfl
  exact Prod.ext hfst hsnd

/-- Witness for C8: amount 500 with location and device present — all
five rules miss and the default APPROVE with one reason is returned. -/
theorem default_on_all_miss_witness :
    run_rules ⟨"u", some 500, "m", "t", "INR", some "D", some "L"⟩ =
      ("APPROVE", ["No rules triggered; default APPROVE decision"]) :=
  default_on_all_miss _ (by decide)

lemma run_rules_eval (txn : TransactionRequest) :
    run_rules txn =
      combine [_amount_non_positive_rule txn, _max_amount_rule txn,
        _high_value_review_rule txn, _missing_location_rule txn,
        _missing_device_rule txn] := rfl

/-- C9 (REVIEW on missing location and device): for every transaction
with amount 10000 and neither location nor device identifier, both
missing-field rules hit suggesting REVIEW with severity 20, the
decision is REVIEW, and the reason list has exactly the two missing-
field texts. -/
theorem review_on_missing_location_and_device (txn : TransactionRequest)
    (ha : txn.amount = some 10000) (hl : txn.location = none)
    (hd : txn.device_id = none) :
    run_rules txn =
        ("REVIEW",
          ["Missing transaction location", "Missing device identifier"]) ∧
      _missing_location_rule txn =
        ⟨"missing_location", true, some "REVIEW",
          ["Missing transaction location"], 20⟩ ∧
      _missing_device_rule txn =
        ⟨"missing_device_id", true, some "REVIEW",
          ["Missing device identifier"], 20⟩ := by
  have h1 : _amount_non_positive_rule txn =
      ⟨"amount_non_positive", false, none, [], 0⟩ := by
    norm_num [_amount_non_positive_rule, ha]
  have h2 : _max_amount_rule txn =
      ⟨"max_amount_limit", false, none, [], 0⟩ := by
    norm_num [_max_amount_rule, ha]
  have h3 : _high_value_review_rule txn =
      ⟨"high_value_review", false, none, [], 0⟩ := by
    norm_num [_high_value_review_rule, ha]
  have h4 : _missing_location_rule txn =
      ⟨"missing_location", true, some "REVIEW",
        ["Missing transaction location"], 20⟩ := by
    simp [_missing_location_rule, hl]
  have h5 : _missing_device_rule txn =
      ⟨"missing_device_id", true, some "REVIEW",
        ["Missing device identifier"], 20⟩ := by
    simp [_missing_device_rule, hd]
  refine ⟨?_, h4, h5⟩
  rw [run_rules_eval, h1, h2, h3, h4, h5]
  decide

/-- Witness for C9. -/
theorem review_on_missing_location_and_device_witness :
    run_rules ⟨"u", some 10000, "m", "t", "INR", none, none⟩ =
      ("REVIEW",
        ["Missing transaction location", "Missing device identifier"]) :=
  (review_on_missing_location_and_device _ rfl rfl rfl).1

/-- C10 (implicit threshold boundaries): with location and device
present, amount exactly 100000 yields REVIEW (the high-value band is
strict below, inclusive above, and the max-amount DECLINE needs
strictly more than 100000) while amount exactly 50000 yields APPROVE
(the 50000 bound is strict) — in both `run_rules` and
`_run_basic_rules`. -/
theorem threshold_boundaries (txn : TransactionRequest) (l d : String)
    (hl : txn.location = some l) (hd : txn.device_id = some d) :
    (txn.amount = some 100000 →
        run_rules txn =
          ("REVIEW", ["High-value transaction requires additional scrutiny"]) ∧
        _run_basic_rules txn =
          some ("REVIEW", ["High-value transaction requires manual review"])) ∧
      (txn.amount = some 50000 →
        run_rules txn =
          ("APPROVE", ["No rules triggered; default APPROVE decision"]) ∧
        _run_basic_rules txn =
          some ("APPROVE", ["Passed basic rules"])) := by
  have h4 : _missing_location_rule txn =
      ⟨"missing_location", false, none, [], 0⟩ := by
    simp [_missing_location_rule, hl]
  have h5 : _missing_device_rule txn =
      ⟨"missing_device_id", false, none, [], 0⟩ := by
    simp [_missing_device_rule, hd]
  constructor
  · intro ha
    have h1 : _amount_non_positive_rule txn =
        ⟨"amount_non_positive", false, none, [], 0⟩ := by
      norm_num [_amount_non_positive_rule, ha]
    have h2 : _max_amount_rule txn =
        ⟨"max_amount_limit", false, none, [], 0⟩ := by
      norm_num [_max_amount_rule, ha]
    have h3 : _high_value_review_rule txn =
        ⟨"high_value_review", true, some "REVIEW",
          ["High-value transaction requires additional scrutiny"], 50⟩ := by
      norm_num [_high_value_review_rule, ha]
    refine ⟨?_, ?_⟩
    · rw [run_rules_eval, h1, h2, h3, h4, h5]
      decide
    · norm_num [_run_basic_rules, ha, hl, hd, Option.some_ne_none]
  · intro ha
    have h1 : _amount_non_positive_rule txn =
        ⟨"amount_non_positive", false, none, [], 0⟩ := by
      norm_num [_amount_non_positive_rule, ha]
    have h2 : _max_amount_rule txn =
        ⟨"max_amount_limit", false, none, [], 0⟩ := by
      norm_num [_max_amount_rule, ha]
    have h3 : _high_value_review_rule txn =
        ⟨"high_value_review", false, none, [], 0⟩ := by
      norm_num [_high_value_review_rule, ha]
    refine ⟨?_, ?_⟩
    · rw [run_rules_eval, h1, h2, h3, h4, h5]
      decide
    · norm_num [_run_basic_rules, ha, hl, hd, Option.some_ne_none]

/-- Witness for C10: exercises both threshold amounts. -/
theorem threshold_boundaries_witness :
    (run_rules ⟨"u", some 100000, "m", "t", "INR", some "D", some "L"⟩ =
        ("REVIEW", ["High-value transaction requires additional scrutiny"]) ∧
      _run_basic_rules ⟨"u", some 100000, "m", "t", "INR", some "D", some "L"⟩ =
        some ("REVIEW", ["High-value transaction requires manual review"])) ∧
      (run_rules ⟨"u", some 50000, "m", "t", "INR", some "D", some "L"⟩ =
        ("APPROVE", ["No rules triggered; default APPROVE decision"]) ∧
      _run_basic_rules ⟨"u", some 50000, "m", "t", "INR", some "D", some "L"⟩ =
        some ("APPROVE", ["Passed basic rules"])) :=
  ⟨(threshold_boundaries _ "L" "D" rfl rfl).1 rfl,
   (threshold_boundaries _ "L" "D" rfl rfl).2 rfl⟩
